import Mathlib

/-!
Shallow embedding of the HazelNote study-bundle server (`server.py`) and proofs
about it.  Text is modelled as `List Char`; the Python string helpers used by
the server (`re.sub(r'\s+', ' ', ·).strip()`, `str.split`, `str.replace`,
`str.splitlines`, `in`, `dict.fromkeys`) are embedded character-by-character
with Python's semantics (ASCII whitespace).
-/

namespace HazelNote

/-- Python `re.sub(r'\s+', ' ', text)`: every maximal run of whitespace is
replaced by a single space.  The boolean argument records whether the
previously emitted character came from a whitespace run. -/
def collapseAux : Bool → List Char → List Char
  | _, [] => []
  | prevWS, c :: cs =>
    if c.isWhitespace then
      if prevWS then collapseAux true cs else ' ' :: collapseAux true cs
    else c :: collapseAux false cs

/-- Python `str.strip()`: drop whitespace from both ends. -/
def trimL (l : List Char) : List Char :=
  List.rdropWhile Char.isWhitespace (l.dropWhile Char.isWhitespace)

/-- `clean_text` (server.py line 36): `re.sub(r'\s+', ' ', text).strip()`. -/
def clean_text (l : List Char) : List Char :=
  trimL (collapseAux false l)

/-- Bool check that no two adjacent characters are both whitespace. -/
def noAdjWS : List Char → Bool
  | [] => true
  | [_] => true
  | a :: b :: rest => !(a.isWhitespace && b.isWhitespace) && noAdjWS (b :: rest)

/-- The SourceText invariant of the spec: no two adjacent whitespace
characters, and no leading or trailing whitespace. -/
def Collapsed (l : List Char) : Prop :=
  noAdjWS l = true ∧
  l.head?.all (fun c => !c.isWhitespace) = true ∧
  l.getLast?.all (fun c => !c.isWhitespace) = true

instance (l : List Char) : Decidable (Collapsed l) :=
  inferInstanceAs (Decidable (noAdjWS l = true ∧
    l.head?.all (fun c => !c.isWhitespace) = true ∧
    l.getLast?.all (fun c => !c.isWhitespace) = true))

theorem noAdjWS_iff_chain (l : List Char) :
    noAdjWS l = true ↔
      List.Chain' (fun a b => ¬(a.isWhitespace = true ∧ b.isWhitespace = true))
        l := by
  induction l with
  | nil => simp [noAdjWS]
  | cons a as ih =>
    cases as with
    | nil => simp [noAdjWS]
    | cons b rest =>
      rw [show noAdjWS (a :: b :: rest) =
        (!(a.isWhitespace && b.isWhitespace) && noAdjWS (b :: rest)) from rfl]
      rw [List.chain'_cons, ← ih]
      simp only [Bool.and_eq_true, Bool.not_eq_true', Bool.and_eq_false_iff]
      cases a.isWhitespace <;> cases b.isWhitespace <;> simp

theorem head_collapseAux_true (l : List Char) :
    ∀ c, (collapseAux true l).head? = some c → c.isWhitespace = false := by
  induction l with
  | nil => intro c h; simp [collapseAux] at h
  | cons a as ih =>
    intro c h
    by_cases ha : a.isWhitespace
    · rw [show collapseAux true (a :: as) = collapseAux true as by
        simp [collapseAux, ha]] at h
      exact ih c h
    · rw [show collapseAux true (a :: as) = a :: collapseAux false as by
        simp [collapseAux, ha]] at h
      simp only [List.head?_cons, Option.some.injEq] at h
      subst h
      exact Bool.eq_false_iff.mpr ha

theorem chain_collapseAux (l : List Char) (b : Bool) :
    List.Chain' (fun a c => ¬(a.isWhitespace = true ∧ c.isWhitespace = true))
      (collapseAux b l) := by
  induction l generalizing b with
  | nil => simp [collapseAux]
  | cons a as ih =>
    by_cases ha : a.isWhitespace
    · cases b with
      | true =>
        rw [show collapseAux true (a :: as) = collapseAux true as by
          simp [collapseAux, ha]]
        exact ih true
      | false =>
        rw [show collapseAux false (a :: as) = ' ' :: collapseAux true as by
          simp [collapseAux, ha]]
        refine List.chain'_cons'.mpr ⟨?_, ih true⟩
        intro y hy
        rintro ⟨-, hy2⟩
        have := head_collapseAux_true as y hy
        simp [this] at hy2
    · rw [show collapseAux b (a :: as) = a :: collapseAux false as by
        simp [collapseAux, ha]]
      refine List.chain'_cons'.mpr ⟨?_, ih false⟩
      intro y hy
      rintro ⟨hy1, -⟩
      exact ha (by simp [hy1])

theorem trimL_isInfixOf_self (l : List Char) : trimL l <:+: l := by
  obtain ⟨t, ht⟩ := List.rdropWhile_prefix Char.isWhitespace
    (l.dropWhile Char.isWhitespace)
  obtain ⟨s, hs⟩ := List.dropWhile_suffix (l := l) Char.isWhitespace
  refine ⟨s, t, ?_⟩
  unfold trimL
  rw [List.append_assoc, ht, hs]

theorem head_trimL (l : List Char) :
    ∀ c, (trimL l).head? = some c → c.isWhitespace = false := by
  intro c h
  have hne : trimL l ≠ [] := by intro he; rw [he] at h; simp at h
  obtain ⟨t, ht⟩ := List.rdropWhile_prefix Char.isWhitespace
    (l.dropWhile Char.isWhitespace)
  have hdne : l.dropWhile Char.isWhitespace ≠ [] := by
    intro he
    apply hne
    unfold trimL
    rw [he]
    simp [List.rdropWhile]
  have hd : (l.dropWhile Char.isWhitespace).head? = some c := by
    rw [← ht]
    cases htl : trimL l with
    | nil => exact absurd htl hne
    | cons x xs =>
      have hcx : x = c := by rw [htl] at h; simpa using h
      rw [show List.rdropWhile Char.isWhitespace
        (List.dropWhile Char.isWhitespace l) = x :: xs from htl]
      simp [hcx]
  have hhead := List.head_dropWhile_not Char.isWhitespace l hdne
  rw [List.head?_eq_head hdne] at hd
  simp only [Option.some.injEq] at hd
  rw [← hd]
  exact hhead

theorem getLast_trimL (l : List Char) :
    ∀ c, (trimL l).getLast? = some c → c.isWhitespace = false := by
  intro c h
  have hne : trimL l ≠ [] := by intro he; rw [he] at h; simp at h
  have hlast := List.rdropWhile_last_not (p := Char.isWhitespace)
    (l := l.dropWhile Char.isWhitespace) hne
  rw [List.getLast?_eq_getLast _ hne] at h
  simp only [Option.some.injEq] at h
  rw [← h]
  simpa using hlast

theorem collapsed_clean_text (l : List Char) : Collapsed (clean_text l) := by
  refine ⟨?_, ?_, ?_⟩
  · exact (noAdjWS_iff_chain _).mpr
      ( List.Chain'.infix (chain_collapseAux l false)
        (trimL_isInfixOf_self (collapseAux false l)))
  · cases h : (clean_text l).head? with
    | none => rfl
    | some c =>
      have hc := head_trimL (collapseAux false l) c h
      show (!c.isWhitespace) = true
      rw [hc]
      rfl
  · cases h : (clean_text l).getLast? with
    | none => rfl
    | some c =>
      have hc := getLast_trimL (collapseAux false l) c h
      show (!c.isWhitespace) = true
      rw [hc]
      rfl

/-- First occurrence of `sep` in a list: `some (before, after)` where the list
is `before ++ sep ++ after` at the leftmost occurrence, `none` if `sep` does
not occur.  Mirrors how Python's `str.split`/`str.find` scan left to right. -/
def findSplit (sep : List Char) : List Char → Option (List Char × List Char)
  | [] => none
  | c :: cs =>
    if sep.isPrefixOf (c :: cs) then some ([], (c :: cs).drop sep.length)
    else (findSplit sep cs).map (fun p => (c :: p.1, p.2))

/-- Fuel-driven worker for `pySplit`; the fuel `l.length` is enough because
each found separator occurrence consumes at least one character. -/
def splitGo (sep : List Char) : Nat → List Char → List (List Char)
  | 0, l => [l]
  | fuel + 1, l =>
    match findSplit sep l with
    | none => [l]
    | some (b, a) => b :: splitGo sep fuel a

/-- Python `str.split(sep)` for a non-empty separator. -/
def pySplit (sep l : List Char) : List (List Char) :=
  if sep.isEmpty then [l] else splitGo sep l.length l

/-- Python `sub in s` (substring containment). -/
def pyContains (sub l : List Char) : Bool :=
  (findSplit sub l).isSome

/-- Python `s.replace(pat, repl)`: replace every (leftmost, non-overlapping)
occurrence of `pat` by `repl`. -/
def pyReplace (pat repl l : List Char) : List Char :=
  List.intercalate repl (pySplit pat l)

/-- Python `str.splitlines()` restricted to `'\n'` terminators: like splitting
on `'\n'` but without a trailing empty piece. -/
def pySplitLines (l : List Char) : List (List Char) :=
  let ps := pySplit ['\n'] l
  match ps.getLast? with
  | some [] => ps.dropLast
  | _ => ps

/-- Python `list(dict.fromkeys(xs))`: keep the first occurrence of each
distinct element, in order of first appearance. -/
def pyDedupAux (seen : List (List Char)) : List (List Char) → List (List Char)
  | [] => []
  | x :: xs =>
    if x ∈ seen then pyDedupAux seen xs else x :: pyDedupAux (x :: seen) xs

/-- Python `list(dict.fromkeys(xs))`. -/
def pyDedup (l : List (List Char)) : List (List Char) :=
  pyDedupAux [] l

/-- Python `" ".join(xs)`. -/
def joinSpace (ls : List (List Char)) : List Char :=
  List.intercalate [' '] ls

theorem findSplit_isSome_iff {sep : List Char} (hsep : sep ≠ []) :
    ∀ l : List Char, (findSplit sep l).isSome = true ↔ sep <:+: l := by
  intro l
  induction l with
  | nil =>
    constructor
    · intro h; simp [findSplit] at h
    · intro h; exact absurd (List.eq_nil_of_infix_nil h) hsep
  | cons c cs ih =>
    by_cases hp : sep.isPrefixOf (c :: cs)
    · have heq : findSplit sep (c :: cs) = some ([], (c :: cs).drop sep.length) := by
        simp [findSplit, hp]
      rw [heq]
      simp only [Option.isSome_some, true_iff]
      have : sep <+: c :: cs := List.isPrefixOf_iff_prefix.mp hp
      obtain ⟨t, ht⟩ := this
      exact ⟨[], t, by simpa using ht⟩
    · have heq : findSplit sep (c :: cs) =
          (findSplit sep cs).map (fun p => (c :: p.1, p.2)) := by
        simp [findSplit, hp]
      rw [heq, Option.isSome_map', ih, List.infix_cons_iff]
      constructor
      · exact Or.inr
      · rintro (h | h)
        · exact absurd (List.isPrefixOf_iff_prefix.mpr h) hp
        · exact h

theorem findSplit_eq_none {sep : List Char} (hsep : sep ≠ []) {l : List Char}
    (h : ¬ sep <:+: l) : findSplit sep l = none := by
  have := (findSplit_isSome_iff hsep l).not.mpr h
  cases he : findSplit sep l with
  | none => rfl
  | some p => rw [he] at this; simp at this

theorem pyContains_iff {sep : List Char} (hsep : sep ≠ []) (l : List Char) :
    pyContains sep l = true ↔ sep <:+: l :=
  findSplit_isSome_iff hsep l

theorem pySplit_of_no_occurrence {sep : List Char} (hsep : sep ≠ [])
    {l : List Char} (h : ¬ sep <:+: l) : pySplit sep l = [l] := by
  unfold pySplit
  rw [if_neg (by simpa using hsep)]
  cases hn : l.length with
  | zero => rfl
  | succ n =>
    unfold splitGo
    rw [findSplit_eq_none hsep h]

theorem pyDedupAux_mem (l : List (List Char)) :
    ∀ seen x, x ∈ pyDedupAux seen l ↔ x ∈ l ∧ x ∉ seen := by
  induction l with
  | nil => intro seen x; simp [pyDedupAux]
  | cons y ys ih =>
    intro seen x
    by_cases hy : y ∈ seen
    · rw [show pyDedupAux seen (y :: ys) = pyDedupAux seen ys by
        simp [pyDedupAux, hy]]
      rw [ih]
      constructor
      · rintro ⟨h1, h2⟩; exact ⟨List.mem_cons_of_mem y h1, h2⟩
      · rintro ⟨h1, h2⟩
        rcases List.mem_cons.mp h1 with h | h
        · exact absurd (h ▸ hy) h2
        · exact ⟨h, h2⟩
    · rw [show pyDedupAux seen (y :: ys) = y :: pyDedupAux (y :: seen) ys by
        simp [pyDedupAux, hy]]
      rw [List.mem_cons, ih]
      constructor
      · rintro (rfl | ⟨h1, h2⟩)
        · exact ⟨List.mem_cons_self x ys, hy⟩
        · exact ⟨List.mem_cons_of_mem y h1, fun hs => h2 (List.mem_cons_of_mem y hs)⟩
      · rintro ⟨h1, h2⟩
        by_cases hxy : x = y
        · exact Or.inl hxy
        · have hys : x ∈ ys := by
            rcases List.mem_cons.mp h1 with h | h
            · exact absurd h hxy
            · exact h
          refine Or.inr ⟨hys, fun hs => ?_⟩
          rcases List.mem_cons.mp hs with h | h
          · exact hxy h
          · exact h2 h

theorem pyDedupAux_nodup (l : List (List Char)) :
    ∀ seen, (pyDedupAux seen l).Nodup := by
  induction l with
  | nil => intro seen; simp [pyDedupAux]
  | cons y ys ih =>
    intro seen
    by_cases hy : y ∈ seen
    · rw [show pyDedupAux seen (y :: ys) = pyDedupAux seen ys by
        simp [pyDedupAux, hy]]
      exact ih seen
    · rw [show pyDedupAux seen (y :: ys) = y :: pyDedupAux (y :: seen) ys by
        simp [pyDedupAux, hy]]
      refine List.nodup_cons.mpr ⟨?_, ih (y :: seen)⟩
      intro hmem
      exact ((pyDedupAux_mem ys (y :: seen) y).mp hmem).2 (List.mem_cons_self y seen)

theorem pyDedupAux_sublist (l : List (List Char)) :
    ∀ seen, List.Sublist (pyDedupAux seen l) l := by
  induction l with
  | nil => intro seen; simp [pyDedupAux]
  | cons y ys ih =>
    intro seen
    by_cases hy : y ∈ seen
    · rw [show pyDedupAux seen (y :: ys) = pyDedupAux seen ys by
        simp [pyDedupAux, hy]]
      exact (ih seen).trans (List.sublist_cons_self y ys)
    · rw [show pyDedupAux seen (y :: ys) = y :: pyDedupAux (y :: seen) ys by
        simp [pyDedupAux, hy]]
      exact List.Sublist.cons₂ y (ih (y :: seen))

theorem pyDedup_nodup (l : List (List Char)) : (pyDedup l).Nodup :=
  pyDedupAux_nodup l []

theorem pyDedup_mem (l : List (List Char)) (x : List Char) :
    x ∈ pyDedup l ↔ x ∈ l := by
  rw [pyDedup, pyDedupAux_mem]
  simp

theorem pyDedup_sublist (l : List (List Char)) : List.Sublist (pyDedup l) l :=
  pyDedupAux_sublist l []


/-- Invidious cue-line filter (server.py line 74): keep a raw line when it has
no `-->`, is not blank after stripping, and does not start with `WEBVTT` or
`Kind:`.  Note: no `Language:` check on this path. -/
def invidious_keep (line : List Char) : Bool :=
  !(pyContains "-->".toList line) && !(trimL line).isEmpty &&
    !("WEBVTT".toList.isPrefixOf line) && !("Kind:".toList.isPrefixOf line)

/-- Raw payload lines kept by the Invidious extractor. -/
def invidious_kept (vtt : List Char) : List (List Char) :=
  (pySplitLines vtt).filter invidious_keep

/-- Stripped cue lines of the Invidious extractor (server.py line 74). -/
def invidious_lines (vtt : List Char) : List (List Char) :=
  (invidious_kept vtt).map trimL

/-- Invidious caption-payload extraction (server.py line 75):
`" ".join(list(dict.fromkeys(lines)))`. -/
def invidious_extract (vtt : List Char) : List Char :=
  joinSpace (pyDedup (invidious_lines vtt))

/-- yt-dlp cue-line filter (server.py line 108): same as the Invidious one
plus a `Language:` header check. -/
def ytdlp_keep (line : List Char) : Bool :=
  !(pyContains "-->".toList line) && !(trimL line).isEmpty &&
    !("WEBVTT".toList.isPrefixOf line) && !("Kind:".toList.isPrefixOf line) &&
    !("Language:".toList.isPrefixOf line)

/-- Raw subtitle-file lines kept by the yt-dlp extractor. -/
def ytdlp_kept (content : List Char) : List (List Char) :=
  (pySplitLines content).filter ytdlp_keep

/-- Stripped cue lines of the yt-dlp extractor (server.py line 108). -/
def ytdlp_lines (content : List Char) : List (List Char) :=
  (ytdlp_kept content).map trimL

/-- yt-dlp subtitle-file extraction before `clean_text`
(server.py line 109). -/
def ytdlp_extract (content : List Char) : List Char :=
  joinSpace (pyDedup (ytdlp_lines content))

/-- Outcome of one Invidious proxy-endpoint attempt, as distinguished by
`fetch_invidious_transcript` (server.py lines 54-79): a raised exception or
timeout, a non-200 metadata response, no English caption track, a non-200
caption response, or a fetched caption payload. -/
inductive EndpointOutcome where
  | netFail
  | metaBad
  | noTrack
  | capBad
  | payload (vtt : List Char)
deriving DecidableEq

/-- `fetch_invidious_transcript` (server.py lines 45-80) over the outcomes of
its fixed endpoint list, in order: the first endpoint that delivers a caption
payload determines the return value (the extraction is returned even when it
is empty); every other outcome moves on to the next endpoint; exhaustion
yields `None`. -/
def fetch_invidious_transcript : List EndpointOutcome → Option (List Char)
  | [] => none
  | .payload v :: _ => some (invidious_extract v)
  | .netFail :: rest => fetch_invidious_transcript rest
  | .metaBad :: rest => fetch_invidious_transcript rest
  | .noTrack :: rest => fetch_invidious_transcript rest
  | .capBad :: rest => fetch_invidious_transcript rest

/-- Result of the official captions API attempt (server.py lines 88-92):
either an ordered list of caption-fragment texts or any exception. -/
inductive OfficialApiResult where
  | ok (fragments : List (List Char))
  | fail
deriving DecidableEq

/-- yt-dlp stage of `get_transcript` (server.py lines 100-110): the argument
is the content of `transcript.en.vtt` when the tool succeeded and the file
exists, `none` otherwise (process failure, no file, or a read error, all
swallowed by `except: pass`). -/
def ytdlp_stage : Option (List Char) → Option (List Char)
  | some content => some (clean_text (ytdlp_extract content))
  | none => none

/-- `get_transcript` (server.py lines 82-112): resolve the video id, then try
the official API, the Invidious proxy chain (used only when its text is
truthy, i.e. non-empty), and finally yt-dlp. -/
def get_transcript (idFound : Bool) (official : OfficialApiResult)
    (proxies : List EndpointOutcome) (ytdlpFile : Option (List Char)) :
    Option (List Char) :=
  if !idFound then none
  else
    match official with
    | .ok frags => some (clean_text (joinSpace frags))
    | .fail =>
      match fetch_invidious_transcript proxies with
      | some t => if t.isEmpty then ytdlp_stage ytdlpFile else some (clean_text t)
      | none => ytdlp_stage ytdlpFile

/-- `extract_pdf_text` (server.py lines 114-121): `none` when `pypdf` raises,
otherwise the page texts concatenated each with a trailing newline, cleaned. -/
def extract_pdf_text : Option (List (List Char)) → Option (List Char)
  | none => none
  | some pages => some (clean_text (List.flatten (pages.map (fun p => p ++ ['\n']))))

/-- One parsed quiz item (server.py line 184). -/
structure QuizItem where
  question : List Char
  options : List (List Char)
  answer : List Char
deriving DecidableEq

/-- Flashcard parsing of the stage-2 output (server.py lines 168-175). -/
def parse_flashcards (raw : List Char) : List (List Char × List Char) :=
  if pyContains "===FLASHCARDS===".toList raw then
    let seg := (pySplit "===FLASHCARDS===".toList raw).getD 1 []
    let seg2 := (pySplit "===QUIZ===".toList seg).getD 0 []
    (pySplitLines seg2).filterMap (fun line =>
      if pyContains ['|'] line then
        let p := pySplit ['|'] line
        if 2 ≤ p.length then
          some (trimL (pyReplace "Front:".toList [] (p.getD 0 [])),
                trimL (pyReplace "Back:".toList [] (p.getD 1 [])))
        else none
      else none)
  else []

/-- Quiz parsing of the stage-2 output (server.py lines 177-185): for each
line of the segment after `===QUIZ===` containing a pipe and `Q:`, split on
pipes; with at least 5 fields, the question is field 0 with `Q:` removed and
stripped, the options are fields 1..n-2 stripped (labels kept), the answer is
the last field with `Answer:` removed and stripped. -/
def parse_quiz (raw : List Char) : List QuizItem :=
  if pyContains "===QUIZ===".toList raw then
    let seg := (pySplit "===QUIZ===".toList raw).getD 1 []
    (pySplitLines seg).filterMap (fun line =>
      if pyContains ['|'] line && pyContains "Q:".toList line then
        let p := pySplit ['|'] line
        if 5 ≤ p.length then
          some { question := trimL (pyReplace "Q:".toList [] (p.getD 0 []))
                 options := ((p.drop 1).dropLast).map trimL
                 answer := trimL (pyReplace "Answer:".toList [] ((p.getLast?).getD [])) }
        else none
      else none)
  else []

/-- The bundle returned by `generate_study_data` (server.py lines 133-201):
either the error shape `{"error": raw}` or the full success shape. -/
inductive StudyBundle where
  | err (msg : List Char)
  | ok (summary notes : List Char) (flashcards : List (List Char × List Char))
      (quiz : List QuizItem) (podcast : List Char) (raw_transcript : List Char)
deriving DecidableEq

/-- `generate_study_data` (server.py lines 133-201).  The completion service
is a black box; `responses n` is the text returned by the n-th
`try_generate` call of this invocation (0 = notes, 1 = extras, 2 = podcast).
The second component counts the completion calls actually made: the stage-1
check `if "Error:" in raw_notes` aborts after 1 call, otherwise the extras
and podcast calls are both made (3 calls). -/
def generate_study_data (responses : Nat → List Char) (text : List Char) :
    StudyBundle × Nat :=
  let raw_notes := responses 0
  if pyContains "Error:".toList raw_notes then (.err raw_notes, 1)
  else
    let parts := pySplit "===SPLIT===".toList raw_notes
    let summary := trimL (parts.getD 0 [])
    let notes_text := if 1 < parts.length then trimL (parts.getD 1 []) else raw_notes
    let raw_extras := responses 1
    (.ok summary notes_text (parse_flashcards raw_extras) (parse_quiz raw_extras)
      (responses 2) (text.take 20000), 3)

/-- Credential gate of `get_client` (server.py lines 31-34):
`not api_key or api_key == "null" or len(api_key) < 10`; `none` models a
missing `X-Gemini-API-Key` header. -/
def rejected_key : Option String → Bool
  | none => true
  | some s => s.isEmpty || s == "null" || decide (s.length < 10)

/-- Externally visible pipeline work units, for stating that nothing is
attempted after an authorization failure. -/
inductive Effect where
  | transcript_fetch
  | doc_parse
  | completion
deriving DecidableEq

/-- Responses of the four API routes, abstracted from HTTP. -/
inductive ApiResponse where
  | unauthorized
  | unprocessable
  | bad_input
  | bundle (b : StudyBundle)
  | chatReply (a : List Char)
deriving DecidableEq

/-- `analyze_video` route (server.py lines 208-214): credential gate first,
then the transcript chain, then generation; a falsy (missing or empty)
transcript returns the 422 error shape. -/
def analyze_video (key : Option String) (idFound : Bool)
    (official : OfficialApiResult) (proxies : List EndpointOutcome)
    (ytdlpFile : Option (List Char)) (responses : Nat → List Char) :
    ApiResponse × List Effect :=
  if rejected_key key then (.unauthorized, [])
  else
    match get_transcript idFound official proxies ytdlpFile with
    | none => (.unprocessable, [.transcript_fetch])
    | some t =>
      if t.isEmpty then (.unprocessable, [.transcript_fetch])
      else
        let r := generate_study_data responses t
        (.bundle r.1, .transcript_fetch :: List.replicate r.2 .completion)

/-- `analyze_text` route (server.py lines 216-219): credential gate, then
`generate_study_data(client, req.text)` — the pasted text is handed over
unmodified. -/
def analyze_text (key : Option String) (reqText : List Char)
    (responses : Nat → List Char) : ApiResponse × List Effect :=
  if rejected_key key then (.unauthorized, [])
  else
    let r := generate_study_data responses reqText
    (.bundle r.1, List.replicate r.2 .completion)

/-- The argument expression passed to `generate_study_data` by the
`analyze_text` route (server.py line 219): `req.text` itself, with no
normalization applied. -/
def analyze_text_source_arg (reqText : List Char) : List Char :=
  reqText

/-- `analyze_pdf` route (server.py lines 221-229): credential gate, document
extraction, falsy-text check, then generation. -/
def analyze_pdf (key : Option String) (pages : Option (List (List Char)))
    (responses : Nat → List Char) : ApiResponse × List Effect :=
  if rejected_key key then (.unauthorized, [])
  else
    match extract_pdf_text pages with
    | none => (.bad_input, [.doc_parse])
    | some t =>
      if t.isEmpty then (.bad_input, [.doc_parse])
      else
        let r := generate_study_data responses t
        (.bundle r.1, .doc_parse :: List.replicate r.2 .completion)

/-- `ChatRequest` (server.py lines 25-28). -/
structure ChatRequest where
  context : List Char
  question : List Char
  full_content : List Char

/-- The prompt built by the chat route (server.py line 235): fixed instruction
text, the first 5000 characters of `full_content`, and the question.  The
`context` field of the request is not used. -/
def chat_prompt (req : ChatRequest) : List Char :=
  "Tutor Mode. Spoken style. Context: ".toList ++ req.full_content.take 5000 ++
    ". Question: ".toList ++ req.question

/-- `chat_with_context` route (server.py lines 231-235); `svc` is the
completion service (prompt to answer) behind `try_generate` for the client
built from the credential. -/
def chat_with_context (key : Option String) (req : ChatRequest)
    (svc : List Char → List Char) : ApiResponse × List Effect :=
  if rejected_key key then (.unauthorized, [])
  else (.chatReply (svc (chat_prompt req)), [.completion])

/-- Observable ways the yt-dlp attempt of `get_transcript` (server.py lines
100-110) can unfold with respect to the filesystem: the subprocess may raise
(`check=True` on a non-zero exit) before or after the tool wrote
`transcript.en.vtt`, succeed without writing it, succeed but have the read
raise, or succeed with the read and removal completing. -/
inductive YtdlpRun where
  | raisedNoFile
  | raisedWithFile
  | okNoFile
  | okFileReadRaises
  | okFileRead
deriving DecidableEq

/-- Add a filename to the modelled filesystem. -/
def addFile (fs : List String) (n : String) : List String :=
  if n ∈ fs then fs else n :: fs

/-- The fixed temporary subtitle filename. -/
def subFile : String :=
  "transcript.en.vtt"

/-- Filesystem effect of the yt-dlp attempt (server.py lines 100-110): a
stale file is removed first (line 102); the enclosing `try/except: pass` has
no `finally`, so any exception after the tool wrote the file leaves it on
disk; only the fully successful path reaches `os.remove` (line 107). -/
def ytdlp_attempt_fs (fs0 : List String) (run : YtdlpRun) : List String :=
  let fs1 := fs0.erase subFile
  match run with
  | .raisedNoFile => fs1
  | .raisedWithFile => addFile fs1 subFile
  | .okNoFile => fs1
  | .okFileReadRaises => addFile fs1 subFile
  | .okFileRead => (addFile fs1 subFile).erase subFile

/-- Filesystem effect of `analyze_pdf` (server.py lines 221-229) on the
temporary upload file: `open(temp_filename, "wb")` creates it; if
`buffer.write(await file.read())` raises, the `with` block only closes the
handle and the `os.remove` on line 227 is never reached; otherwise
`extract_pdf_text` cannot raise (it catches everything) and the file is
removed before any response is built. -/
def analyze_pdf_fs (fs0 : List String) (filename : String) (writeOk : Bool) :
    List String :=
  let tmp := "temp_" ++ filename
  let fs1 := addFile fs0 tmp
  if writeOk then fs1.erase tmp else fs1


/-- Bool test for the payload outcome of an endpoint attempt. -/
def isPayload : EndpointOutcome → Bool
  | .payload _ => true
  | _ => false

/-- Unfolding equation for `generate_study_data`. -/
theorem generate_study_data_eq (responses : Nat → List Char)
    (text : List Char) :
    generate_study_data responses text =
      if pyContains "Error:".toList (responses 0) = true then
        (.err (responses 0), 1)
      else
        (.ok (trimL ((pySplit "===SPLIT===".toList (responses 0)).getD 0 []))
          (if 1 < (pySplit "===SPLIT===".toList (responses 0)).length then
            trimL ((pySplit "===SPLIT===".toList (responses 0)).getD 1 [])
          else responses 0)
          (parse_flashcards (responses 1)) (parse_quiz (responses 1))
          (responses 2) (text.take 20000), 3) :=
  rfl

/-- C1 counterexample: a stage-1 output that contains "Error:" in the middle
(so it does not begin with the marker) still makes `generate_study_data`
abort with the error-only bundle after a single completion call, refuting the
claim that the prefix check is the discriminator. -/
theorem c1_counterexample :
    generate_study_data (fun _ => "All good. Error: just kidding".toList)
        "src".toList =
      (.err "All good. Error: just kidding".toList, 1) ∧
    "Error:".toList.isPrefixOf "All good. Error: just kidding".toList = false := by
  decide

/-- C1 (amended): `generate_study_data` aborts with a bundle consisting only
of the error field, after exactly one completion call, precisely when the
stage-1 output contains "Error:" anywhere as a substring; otherwise all three
completion calls are made and no error-shaped bundle is returned. -/
theorem c1_abort_iff_marker_substring (responses : Nat → List Char)
    (text : List Char) :
    (((generate_study_data responses text).1 = .err (responses 0) ∧
        (generate_study_data responses text).2 = 1) ↔
      "Error:".toList <:+: responses 0) ∧
    (¬ "Error:".toList <:+: responses 0 →
      (generate_study_data responses text).2 = 3 ∧
      ∀ m, (generate_study_data responses text).1 ≠ .err m) := by
  by_cases hc : pyContains "Error:".toList (responses 0) = true
  · have hinf := (pyContains_iff (by decide) (responses 0)).mp hc
    have hg : generate_study_data responses text = (.err (responses 0), 1) := by
      rw [generate_study_data_eq, if_pos hc]
    rw [hg]
    exact ⟨⟨fun _ => hinf, fun _ => ⟨rfl, rfl⟩⟩, fun h => absurd hinf h⟩
  · have hinf : ¬ "Error:".toList <:+: responses 0 := fun h =>
      hc ((pyContains_iff (by decide) (responses 0)).mpr h)
    have h2 : (generate_study_data responses text).2 = 3 := by
      rw [generate_study_data_eq, if_neg hc]
    have h1 : ∀ m, (generate_study_data responses text).1 ≠ .err m := by
      intro m
      rw [generate_study_data_eq, if_neg hc]
      exact fun h => StudyBundle.noConfusion h
    refine ⟨⟨fun h => ?_, fun h => absurd h hinf⟩, fun _ => ⟨h2, h1⟩⟩
    rw [h2] at h
    exact absurd h.2 (by decide)

/-- C1 witness: at a marker-containing stage-1 output the abort shape holds. -/
theorem c1_witness :
    generate_study_data (fun _ => "Error: boom".toList) [] =
      (.err "Error: boom".toList, 1) := by
  have h := (c1_abort_iff_marker_substring (fun _ => "Error: boom".toList)
    []).1.mpr (by decide)
  exact Prod.ext h.1 h.2

/-- C2 counterexample: on a payload whose cue lines are A, B, A the extractor
returns "a b", not the claimed one-occurrence-per-consecutive-run "a b a":
deduplication is global, not limited to consecutive runs. -/
theorem c2_counterexample :
    invidious_extract "a\n00:00 --> 00:01\nb\n00:01 --> 00:02\na".toList =
        "a b".toList ∧
    ytdlp_extract "a\n00:00 --> 00:01\nb\n00:01 --> 00:02\na".toList =
        "a b".toList ∧
    "a b".toList ≠ "a b a".toList := by
  decide

/-- C2 (amended): both providers' extractors deduplicate globally: the joined
output is built from the dedup of the cue lines, which keeps exactly one
occurrence of each distinct line (the first), preserving first-appearance
order (a sublist of the cue lines), so a non-adjacent repeat appears once in
total, not once per run. -/
theorem c2_dedup_is_global (vtt : List Char) :
    (pyDedup (invidious_lines vtt)).Nodup ∧
    (∀ x, x ∈ pyDedup (invidious_lines vtt) ↔ x ∈ invidious_lines vtt) ∧
    List.Sublist (pyDedup (invidious_lines vtt)) (invidious_lines vtt) ∧
    (pyDedup (ytdlp_lines vtt)).Nodup ∧
    (∀ x, x ∈ pyDedup (ytdlp_lines vtt) ↔ x ∈ ytdlp_lines vtt) ∧
    List.Sublist (pyDedup (ytdlp_lines vtt)) (ytdlp_lines vtt) ∧
    invidious_extract vtt = joinSpace (pyDedup (invidious_lines vtt)) ∧
    ytdlp_extract vtt = joinSpace (pyDedup (ytdlp_lines vtt)) :=
  ⟨pyDedup_nodup _, pyDedup_mem _, pyDedup_sublist _, pyDedup_nodup _,
    pyDedup_mem _, pyDedup_sublist _, rfl, rfl⟩

/-- C3 counterexample: the first endpoint fetches a payload whose extraction
is empty ("WEBVTT" only); the chain returns that empty result instead of
trying the second endpoint, whose payload would yield "hello". -/
theorem c3_counterexample :
    fetch_invidious_transcript
        [.payload "WEBVTT".toList, .payload "hello".toList] = some [] ∧
    invidious_extract "hello".toList = "hello".toList ∧
    some ([] : List Char) ≠ some "hello".toList := by
  decide

/-- C3 (amended): timeouts, non-success statuses, missing English tracks and
other non-payload outcomes move the chain to the next endpoint, and only
exhaustion yields no result; but the first endpoint that fetches a caption
payload determines the result even when the extracted text is empty. -/
theorem c3_first_payload_endpoint_wins :
    (∀ outs : List EndpointOutcome, (∀ o ∈ outs, isPayload o = false) →
      fetch_invidious_transcript outs = none) ∧
    (∀ (pre : List EndpointOutcome) (v : List Char)
        (rest : List EndpointOutcome), (∀ o ∈ pre, isPayload o = false) →
      fetch_invidious_transcript (pre ++ .payload v :: rest) =
        some (invidious_extract v)) := by
  constructor
  · intro outs h
    induction outs with
    | nil => rfl
    | cons o os ih =>
      have hrest : ∀ x ∈ os, isPayload x = false := fun x hx =>
        h x (List.mem_cons_of_mem o hx)
      cases o with
      | payload v =>
        have := h _ (List.mem_cons_self _ _)
        simp [isPayload] at this
      | netFail => exact ih hrest
      | metaBad => exact ih hrest
      | noTrack => exact ih hrest
      | capBad => exact ih hrest
  · intro pre v rest h
    induction pre with
    | nil => rfl
    | cons o os ih =>
      have hrest : ∀ x ∈ os, isPayload x = false := fun x hx =>
        h x (List.mem_cons_of_mem o hx)
      cases o with
      | payload w =>
        have := h _ (List.mem_cons_self _ _)
        simp [isPayload] at this
      | netFail => exact ih hrest
      | metaBad => exact ih hrest
      | noTrack => exact ih hrest
      | capBad => exact ih hrest

/-- C3 witness: one declining endpoint, then a payload endpoint. -/
theorem c3_witness :
    fetch_invidious_transcript [.netFail, .payload "hi".toList] =
      some (invidious_extract "hi".toList) :=
  c3_first_payload_endpoint_wins.2 [.netFail] "hi".toList [] (by decide)

/-- C4 counterexample: the spec's example line does not parse to options
["3", "4", "5"] — the option label prefixes are not stripped. -/
theorem c4_counterexample :
    parse_quiz
        "===QUIZ===\nQ: What is 2+2? | A: 3 | B: 4 | C: 5 | Answer: 4".toList ≠
      [⟨"What is 2+2?".toList,
        ["3".toList, "4".toList, "5".toList], "4".toList⟩] := by
  decide

/-- C4 (amended): the question label is stripped from the first field and the
answer label from the last, but the middle fields are only trimmed, keeping
their option label prefixes: the example line parses to question
"What is 2+2?", options ["A: 3", "B: 4", "C: 5"], answer "4". -/
theorem c4_quiz_options_keep_labels :
    parse_quiz
        "===QUIZ===\nQ: What is 2+2? | A: 3 | B: 4 | C: 5 | Answer: 4".toList =
      [⟨"What is 2+2?".toList,
        ["A: 3".toList, "B: 4".toList, "C: 5".toList], "4".toList⟩] := by
  decide

/-- C5: stage-1 parsing splits on "===SPLIT===": with no separator in the
raw output the summary is the trimmed raw text and the notes fall back to the
entire raw output, totally (no failure path); with the separator present, the
spec's example yields the trimmed first and second segments. -/
theorem c5_stage1_split_behavior :
    (∀ (responses : Nat → List Char) (text : List Char),
      ¬ "Error:".toList <:+: responses 0 →
      ¬ "===SPLIT===".toList <:+: responses 0 →
      (generate_study_data responses text).1 =
        .ok (trimL (responses 0)) (responses 0) (parse_flashcards (responses 1))
          (parse_quiz (responses 1)) (responses 2) (text.take 20000)) ∧
    (generate_study_data
        (fun _ => "Summary text ===SPLIT=== Notes text".toList) []).1 =
      .ok "Summary text".toList "Notes text".toList [] []
        "Summary text ===SPLIT=== Notes text".toList [] := by
  constructor
  · intro r t herr hsep
    have hcn : ¬ pyContains "Error:".toList (r 0) = true := fun h =>
      herr ((pyContains_iff (by decide) (r 0)).mp h)
    have hs : pySplit "===SPLIT===".toList (r 0) = [r 0] :=
      pySplit_of_no_occurrence (by decide) hsep
    rw [generate_study_data_eq, if_neg hcn, hs]
    rfl
  · decide

/-- C5 witness: a separator-free, marker-free stage-1 output. -/
theorem c5_witness :
    (generate_study_data (fun _ => "abc".toList) []).1 =
      .ok (trimL "abc".toList) "abc".toList (parse_flashcards "abc".toList)
        (parse_quiz "abc".toList) "abc".toList (List.take 20000 []) :=
  c5_stage1_split_behavior.1 (fun _ => "abc".toList) [] (by decide) (by decide)

/-- C6 counterexample: the Invidious extractor keeps a line beginning with
"Language:" (only the yt-dlp extractor filters that header). -/
theorem c6_counterexample :
    "Language: en".toList ∈
        invidious_lines "WEBVTT\nLanguage: en\nhello".toList ∧
    "Language:".toList.isPrefixOf "Language: en".toList = true := by
  decide

/-- C6 (amended): the yt-dlp extractor never keeps a payload line that
contains a timing arrow, is blank, or starts with "WEBVTT", "Kind:" or
"Language:"; the Invidious extractor guarantees the same except for the
"Language:" header, which it does not filter; and neither extractor's output
contains a blank line or a line containing a timing arrow. -/
theorem c6_header_and_timing_filtering (vtt : List Char) :
    (∀ l ∈ ytdlp_kept vtt,
      pyContains "-->".toList l = false ∧ (trimL l).isEmpty = false ∧
      "WEBVTT".toList.isPrefixOf l = false ∧
      "Kind:".toList.isPrefixOf l = false ∧
      "Language:".toList.isPrefixOf l = false) ∧
    (∀ l ∈ invidious_kept vtt,
      pyContains "-->".toList l = false ∧ (trimL l).isEmpty = false ∧
      "WEBVTT".toList.isPrefixOf l = false ∧
      "Kind:".toList.isPrefixOf l = false) ∧
    (∀ l ∈ invidious_lines vtt, l ≠ [] ∧ ¬ "-->".toList <:+: l) ∧
    (∀ l ∈ ytdlp_lines vtt, l ≠ [] ∧ ¬ "-->".toList <:+: l) := by
  have hline : ∀ raw : List Char, pyContains "-->".toList raw = false →
      (trimL raw).isEmpty = false →
      trimL raw ≠ [] ∧ ¬ "-->".toList <:+: trimL raw := by
    intro raw h1 h2
    constructor
    · intro he
      rw [he] at h2
      simp at h2
    · intro hin
      have hraw : "-->".toList <:+: raw := hin.trans (trimL_isInfixOf_self raw)
      have := (pyContains_iff (by decide) raw).mpr hraw
      rw [h1] at this
      cases this
  refine ⟨?_, ?_, ?_, ?_⟩
  · intro l hl
    have h2 := (List.mem_filter.mp hl).2
    simp only [ytdlp_keep, Bool.and_eq_true, Bool.not_eq_true'] at h2
    exact ⟨h2.1.1.1.1, h2.1.1.1.2, h2.1.1.2, h2.1.2, h2.2⟩
  · intro l hl
    have h2 := (List.mem_filter.mp hl).2
    simp only [invidious_keep, Bool.and_eq_true, Bool.not_eq_true'] at h2
    exact ⟨h2.1.1.1, h2.1.1.2, h2.1.2, h2.2⟩
  · intro l hl
    obtain ⟨raw, hraw, rfl⟩ := List.mem_map.mp hl
    have h2 := (List.mem_filter.mp hraw).2
    simp only [invidious_keep, Bool.and_eq_true, Bool.not_eq_true'] at h2
    exact hline raw h2.1.1.1 h2.1.1.2
  · intro l hl
    obtain ⟨raw, hraw, rfl⟩ := List.mem_map.mp hl
    have h2 := (List.mem_filter.mp hraw).2
    simp only [ytdlp_keep, Bool.and_eq_true, Bool.not_eq_true'] at h2
    exact hline raw h2.1.1.1.1 h2.1.1.1.2

/-- C6 witness: an ordinary cue line kept by both extractors. -/
theorem c6_witness :
    pyContains "-->".toList "hi".toList = false ∧
    (trimL "hi".toList).isEmpty = false ∧
    "WEBVTT".toList.isPrefixOf "hi".toList = false ∧
    "Kind:".toList.isPrefixOf "hi".toList = false ∧
    "Language:".toList.isPrefixOf "hi".toList = false :=
  (c6_header_and_timing_filtering "hi".toList).1 "hi".toList (by decide)

/-- C7 counterexample: the pasted-text route hands `req.text` to the
generator unmodified; with an inner double space the SourceText invariant is
violated, as witnessed both by the argument expression and by the
`raw_transcript` field of the returned bundle. -/
theorem c7_counterexample :
    analyze_text_source_arg "a  b".toList = "a  b".toList ∧
    ¬ Collapsed (analyze_text_source_arg "a  b".toList) ∧
    (analyze_text (some "0123456789") "a  b".toList (fun _ => "x".toList)).1 =
      .bundle (.ok "x".toList "x".toList [] [] "x".toList "a  b".toList) := by
  refine ⟨rfl, by decide, by decide⟩

/-- C7 (amended): the video and document entry points do satisfy the
SourceText invariant — every transcript produced by `get_transcript` and
every text produced by `extract_pdf_text` is whitespace-collapsed with no
leading or trailing whitespace (each goes through `clean_text`). -/
theorem c7_video_and_pdf_inputs_collapsed :
    (∀ (idFound : Bool) (official : OfficialApiResult)
        (proxies : List EndpointOutcome) (ytdlpFile : Option (List Char))
        (t : List Char),
      get_transcript idFound official proxies ytdlpFile = some t →
        Collapsed t) ∧
    (∀ (pages : Option (List (List Char)))
        (t : List Char), extract_pdf_text pages = some t → Collapsed t) := by
  have hyt : ∀ (y : Option (List Char)) (t : List Char),
      ytdlp_stage y = some t → Collapsed t := by
    intro y t h
    cases y with
    | none => exact Option.noConfusion h
    | some content =>
      have h' : some (clean_text (ytdlp_extract content)) = some t := h
      rw [← Option.some.inj h']
      exact collapsed_clean_text _
  constructor
  · intro idF off pr ytd t h
    cases idF with
    | false => exact Option.noConfusion h
    | true =>
      cases off with
      | ok frags =>
        have h' : some (clean_text (joinSpace frags)) = some t := h
        rw [← Option.some.inj h']
        exact collapsed_clean_text _
      | fail =>
        have h' : (match fetch_invidious_transcript pr with
            | some u => if u.isEmpty then ytdlp_stage ytd
                        else some (clean_text u)
            | none => ytdlp_stage ytd) = some t := h
        cases hfetch : fetch_invidious_transcript pr with
        | none =>
          rw [hfetch] at h'
          exact hyt ytd t h'
        | some u =>
          rw [hfetch] at h'
          have h2 : (if u.isEmpty then ytdlp_stage ytd
              else some (clean_text u)) = some t := h'
          by_cases hu : u.isEmpty
          · rw [if_pos hu] at h2
            exact hyt ytd t h2
          · rw [if_neg hu] at h2
            rw [← Option.some.inj h2]
            exact collapsed_clean_text _
  · intro pages t h
    cases pages with
    | none => exact Option.noConfusion h
    | some ps =>
      have h' : some (clean_text
          (List.flatten (ps.map (fun p => p ++ ['\n'])))) = some t := h
      rw [← Option.some.inj h']
      exact collapsed_clean_text _

/-- C7 witness: a concrete document extraction is collapsed. -/
theorem c7_witness :
    Collapsed (clean_text ("hi".toList ++ ['\n'])) :=
  c7_video_and_pdf_inputs_collapsed.2 (some ["hi".toList])
    (clean_text ("hi".toList ++ ['\n'])) rfl

/-- C8: on the exception paths the temporary files survive the call — if the
subtitle tool writes `transcript.en.vtt` and then exits non-zero (or the read
of the file raises), the `except: pass` skips the `os.remove`; if the upload
read raises after `open(temp_filename, "wb")` created the file, the remove on
line 227 is never reached.  The success and parse-failure paths do clean up. -/
theorem c8_exception_paths_leave_files :
    subFile ∈ ytdlp_attempt_fs [] .raisedWithFile ∧
    subFile ∈ ytdlp_attempt_fs [] .okFileReadRaises ∧
    "temp_notes.pdf" ∈ analyze_pdf_fs [] "notes.pdf" false ∧
    subFile ∉ ytdlp_attempt_fs [] .okFileRead ∧
    "temp_notes.pdf" ∉ analyze_pdf_fs [] "notes.pdf" true := by
  decide

/-- C9: a missing, empty, placeholder ("null") or too-short credential makes
every one of the four routes answer unauthorized with no pipeline effect (no
transcript fetch, no document parse, no completion call). -/
theorem c9_auth_gate_rejects_first (key : Option String)
    (hbad : key = none ∨
      ∃ s, key = some s ∧ (s = "" ∨ s = "null" ∨ s.length < 10)) :
    (∀ (idFound : Bool) (official : OfficialApiResult)
        (proxies : List EndpointOutcome) (ytdlpFile : Option (List Char))
        (responses : Nat → List Char),
      analyze_video key idFound official proxies ytdlpFile responses =
        (.unauthorized, [])) ∧
    (∀ (reqText : List Char) (responses : Nat → List Char),
      analyze_text key reqText responses = (.unauthorized, [])) ∧
    (∀ (pages : Option (List (List Char))) (responses : Nat → List Char),
      analyze_pdf key pages responses = (.unauthorized, [])) ∧
    (∀ (req : ChatRequest) (svc : List Char → List Char),
      chat_with_context key req svc = (.unauthorized, [])) := by
  have hrej : rejected_key key = true := by
    rcases hbad with rfl | ⟨s, rfl, h⟩
    · rfl
    · rcases h with rfl | rfl | h
      · rfl
      · rfl
      · simp [rejected_key, h]
  refine ⟨?_, ?_, ?_, ?_⟩ <;> intros <;>
    simp [analyze_video, analyze_text, analyze_pdf, chat_with_context, hrej]

/-- C9 witness: the placeholder credential is rejected by two of the routes
with no effects. -/
theorem c9_witness :
    analyze_text (some "null") [] (fun _ => []) = (.unauthorized, []) ∧
    chat_with_context (some "null") ⟨[], [], []⟩ (fun p => p) =
      (.unauthorized, []) :=
  ⟨(c9_auth_gate_rejects_first (some "null")
      (Or.inr ⟨"null", rfl, Or.inr (Or.inl rfl)⟩)).2.1 [] (fun _ => []),
   (c9_auth_gate_rejects_first (some "null")
      (Or.inr ⟨"null", rfl, Or.inr (Or.inl rfl)⟩)).2.2.2 ⟨[], [], []⟩
     (fun p => p)⟩

/-- C10: the chat answer is independent of the request's `context` field —
two requests agreeing on `full_content` and `question` produce the same
prompt and, for a fixed completion service and credential, the same
response. -/
theorem c10_chat_ignores_context (key : Option String)
    (svc : List Char → List Char) (r1 r2 : ChatRequest)
    (hfc : r1.full_content = r2.full_content)
    (hq : r1.question = r2.question) :
    chat_prompt r1 = chat_prompt r2 ∧
    chat_with_context key r1 svc = chat_with_context key r2 svc := by
  have hp : chat_prompt r1 = chat_prompt r2 := by
    unfold chat_prompt
    rw [hfc, hq]
  refine ⟨hp, ?_⟩
  unfold chat_with_context
  rw [hp]

/-- C10 witness: two requests differing only in `context`. -/
theorem c10_witness :
    chat_prompt ⟨"ctxA".toList, "why?".toList, "doc".toList⟩ =
      chat_prompt ⟨"ctxB".toList, "why?".toList, "doc".toList⟩ ∧
    chat_with_context (some "0123456789")
        ⟨"ctxA".toList, "why?".toList, "doc".toList⟩ (fun p => p) =
      chat_with_context (some "0123456789")
        ⟨"ctxB".toList, "why?".toList, "doc".toList⟩ (fun p => p) :=
  c10_chat_ignores_context (some "0123456789") (fun p => p) _ _ rfl rfl

end HazelNote
